import Mathlib

/-!
Shallow embedding of the `ec2-reaper` repository (files `reaper.py` and
`ebs.py`) together with theorems checking the natural-language
specification against it.

Conventions of the embedding:
* AWS timestamps are rationals, measured in seconds; metric averages are
  rationals.  Python float arithmetic on these values is exact for every
  quantity the theorems mention, so `ℚ` is a faithful carrier.
* The CloudWatch call inside `Instance.get_idle_period_hours_for_metric`
  is modelled by a `fetch` field on `Instance`: the list of datapoints the
  service returns for a `(metric name, unit)` request.  The pure tail of
  that Python method (everything after the call) is the function
  `get_idle_period_hours_for_metric` below.
* `reaper.py` returns the sentinel `-1` (not a distinct type) for a
  metric with no datapoints; the embedding keeps that representation.
* Python's in-place descending `list.sort(reverse=True)` on rationals is
  modelled by `List.insertionSort (· ≥ ·)` (any sort agrees on a list of
  plain values).
-/

/-- reaper.py line 14: the metric aggregation period, in seconds. -/
def REPORTING_PERIOD_SECS : ℚ := 5 * 60

/-- reaper.py line 18: hours of metric history fetched per query. -/
def REPORTING_LOOKBACK_TIME_HOURS : ℚ := 48

/-- One CloudWatch datapoint, as consumed by reaper.py lines 145-147. -/
structure Datapoint where
  Timestamp : ℚ
  Average : ℚ
deriving DecidableEq, Repr

/-- reaper.py lines 145-147: timestamps of the datapoints whose average
lies strictly below the idle threshold, in response order. -/
def idle_timestamps (datapoints : List Datapoint) (idle_threshold : ℚ) : List ℚ :=
  (datapoints.filter fun dp => decide (dp.Average < idle_threshold)).map Datapoint.Timestamp

/-- reaper.py line 150: the idle timestamps sorted most recent first. -/
def sorted_idle_timestamps (datapoints : List Datapoint) (idle_threshold : ℚ) : List ℚ :=
  List.insertionSort (fun a b => a ≥ b) (idle_timestamps datapoints idle_threshold)

/-- reaper.py lines 155-162: scan consecutive pairs of the
descending-sorted idle timestamps; the first pair whose gap exceeds one
reporting period yields its more recent element, otherwise the supplied
default (the oldest idle timestamp) is kept. -/
def find_idle_start (idle_start : ℚ) : List ℚ → ℚ
  | cur :: prev :: rest =>
    if cur - prev > REPORTING_PERIOD_SECS then cur
    else find_idle_start idle_start (prev :: rest)
  | _ => idle_start

/-- reaper.py lines 139-167: the pure tail of
`Instance.get_idle_period_hours_for_metric`, acting on the datapoints the
CloudWatch call returned.  No datapoints gives the sentinel `-1`; no idle
datapoint gives `0`; otherwise the length in hours of the most recent
unbroken idle run. -/
def get_idle_period_hours_for_metric (datapoints : List Datapoint) (idle_threshold : ℚ) : ℚ :=
  if datapoints.isEmpty then -1
  else if (idle_timestamps datapoints idle_threshold).isEmpty then 0
  else
    let sorted := sorted_idle_timestamps datapoints idle_threshold
    (sorted.headD 0 - find_idle_start (sorted.getLastD 0) sorted) / 3600

/-- One EC2 tag dictionary, with its `Key` and `Value` entries. -/
structure Tag where
  Key : String
  Value : String
deriving DecidableEq, Repr

/-- reaper.py lines 59-62 and ebs.py lines 21-23: first tag whose key is
`Name`, if any. -/
def find_name_tag : List Tag → Option String
  | [] => none
  | t :: rest => if t.Key = "Name" then some t.Value else find_name_tag rest

/-- reaper.py class `Instance` (lines 48-170): the attributes the
program reads, plus `fetch`, the CloudWatch response for a
`(metric name, unit)` request about this instance. -/
structure Instance where
  InstanceId : String
  InstanceType : String
  stateName : String
  stateCode : Int
  Tags : List Tag
  fetch : String → String → List Datapoint
  min_cpu : ℚ
  min_disk : ℚ
  min_network : ℚ

/-- reaper.py lines 57-62: `Instance.name`, `None` when no `Name` tag. -/
def Instance.name (i : Instance) : Option String :=
  find_name_tag i.Tags

/-- reaper.py lines 68-70: `Instance.is_running`. -/
def Instance.is_running (i : Instance) : Bool :=
  decide (i.stateCode = 16)

/-- reaper.py lines 72-74: `Instance.cpu_idle_period_hours`. -/
def Instance.cpu_idle_period_hours (i : Instance) : ℚ :=
  get_idle_period_hours_for_metric (i.fetch "CPUUtilization" "Percent") i.min_cpu

/-- reaper.py lines 76-81: `Instance.network_idle_period_hours`. -/
def Instance.network_idle_period_hours (i : Instance) : ℚ :=
  max (get_idle_period_hours_for_metric (i.fetch "NetworkPacketsIn" "Count") i.min_network)
    (get_idle_period_hours_for_metric (i.fetch "NetworkPacketsOut" "Count") i.min_network)

/-- reaper.py lines 83-95: `Instance.disk_idle_period_hours`, with the
`EBS` to `Disk` metric-name fallback guarded by `< 0`. -/
def Instance.disk_idle_period_hours (i : Instance) : ℚ :=
  let ebs_read := get_idle_period_hours_for_metric (i.fetch "EBSReadOps" "Count") i.min_disk
  let disk_read_idle :=
    if ebs_read < 0 then get_idle_period_hours_for_metric (i.fetch "DiskReadOps" "Count") i.min_disk
    else ebs_read
  let ebs_write := get_idle_period_hours_for_metric (i.fetch "EBSWriteOps" "Count") i.min_disk
  let disk_write_idle :=
    if ebs_write < 0 then get_idle_period_hours_for_metric (i.fetch "DiskWriteOps" "Count") i.min_disk
    else ebs_write
  max disk_read_idle disk_write_idle

/-- reaper.py lines 97-101: `Instance.idle_period_hours`, the three-way
minimum (Python `min(a, b, c)`). -/
def Instance.idle_period_hours (i : Instance) : ℚ :=
  min i.cpu_idle_period_hours (min i.disk_idle_period_hours i.network_idle_period_hours)

/-- Left-justification to a field width, as Python `f-strings` do with
the `:64s` format specifier. -/
def ljust (s : String) (w : Nat) : String :=
  s ++ String.mk (List.replicate (w - s.length) ' ')

/-- reaper.py lines 169-170: `Instance.__str__`.  Python raises
`TypeError` when `self.name` is `None` (a `:64s` format applied to
`None`), so the rendering is partial; `none` models that failure. -/
def Instance.toStr (i : Instance) : Option String :=
  match i.name with
  | none => none
  | some n =>
    some (ljust n 64 ++ "  " ++ i.InstanceId ++ "  " ++ ljust i.InstanceType 16 ++ " " ++ i.stateName)

/-- The decision reaper.py lines 258-264 take for one checked instance. -/
inductive ReaperAction where
  | warn
  | stop
  | noAction
deriving DecidableEq, Repr

/-- reaper.py lines 258-264: the per-instance threshold logic of
`reaper`, as a function of the effective idle hours and the two
configured timeouts. -/
def reaper_action (idle stop_timeout warning_timeout : ℚ) : ReaperAction :=
  if idle < stop_timeout then
    if idle ≥ warning_timeout then ReaperAction.warn else ReaperAction.noAction
  else ReaperAction.stop

/-- ebs.py lines 6-8: the volume warning thresholds. -/
def MAX_AVAILABLE : Nat := 20

/-- ebs.py line 7: maximum tolerated count of large in-use volumes. -/
def MAX_IN_USE_OVER_200GB : Nat := 10

/-- ebs.py line 8: maximum tolerated total volume size, in GB. -/
def MAX_EBS_SIZE : Int := 10 * 1000

/-- ebs.py class `Volume` (lines 13-25): the attributes `ebs_reaper`
reads.  The `Tags` entry may be absent from the API dictionary, hence an
`Option`. -/
structure Volume where
  VolumeId : String
  State : String
  Size : Int
  Tags : Option (List Tag)

/-- ebs.py lines 18-25: `Volume.name`, with the `<No Name>` sentinel both
when the `Tags` entry is absent and when no tag has key `Name`. -/
def Volume.name (v : Volume) : String :=
  match v.Tags with
  | none => "<No Name>"
  | some ts =>
    match find_name_tag ts with
    | none => "<No Name>"
    | some n => n

/-- One of the three warnings ebs.py lines 112-123 can emit, carrying the
figure interpolated into its message. -/
inductive EbsWarning where
  | availableCount (n : Nat)
  | inUseOver200Count (n : Nat)
  | totalSize (s : Int)
deriving DecidableEq, Repr

/-- ebs.py lines 97-123: the three independent threshold checks of
`ebs_reaper` over the collected volume list, in source order. -/
def ebs_warnings (volumes_vec : List Volume) : List EbsWarning :=
  (if (volumes_vec.filter fun v => v.State == "available").length > MAX_AVAILABLE then
      [EbsWarning.availableCount (volumes_vec.filter fun v => v.State == "available").length]
    else []) ++
  (if (volumes_vec.filter fun v => v.State == "in-use" && decide (v.Size > 200)).length
      > MAX_IN_USE_OVER_200GB then
      [EbsWarning.inUseOver200Count
        (volumes_vec.filter fun v => v.State == "in-use" && decide (v.Size > 200)).length]
    else []) ++
  (if (volumes_vec.map Volume.Size).sum > MAX_EBS_SIZE then
      [EbsWarning.totalSize (volumes_vec.map Volume.Size).sum] else [])

/-- One `describe_volumes` response: ebs.py lines 85-95. -/
structure VolResp where
  Volumes : List Volume
  NextToken : Option String

/-- ebs.py lines 81-95: the volume-listing loop.  The request sent each
iteration carries only the fixed status filter — the code never passes
`nexttoken` back — so a deterministic service yields the same response
every time; `resp` is that response.  The loop has no bound in the
source, so the model takes fuel and returns `none` when the fuel runs out
with the loop still going. -/
def ebs_listing_loop (resp : VolResp) : Nat → List Volume → Option (List Volume)
  | 0, _ => none
  | fuel + 1, acc =>
    let acc2 := acc ++ resp.Volumes
    match resp.NextToken with
    | none => some acc2
    | some _ => ebs_listing_loop resp fuel acc2

/-- One `describe_instances` response: reaper.py lines 230-238.
`Reservations` nests the instance list one level down, as the API does. -/
structure InstResp where
  Reservations : List (List Instance)
  NextToken : Option String

/-- The response sequence is a real pagination chain: every response
except the last carries a continuation token. -/
def tokensChained : List InstResp → Bool
  | r :: s :: rest => r.NextToken.isSome && tokensChained (s :: rest)
  | _ => true

/-- The externally visible events of one `reaper` run, used to order
remote calls against raised configuration errors. -/
inductive Event where
  | describeInstances
  | getMetric (metric : String)
  | slackPost
  | stoppedInstance
  | raisedStopTimeoutTooLong
  | raisedWarningTimeoutTooLong
  | raisedMissingWebhook
deriving DecidableEq, Repr

/-- Events that are remote API calls (resource listing, metric fetch, or
the webhook post itself). -/
def Event.isRemote : Event → Bool
  | Event.describeInstances => true
  | Event.getMetric _ => true
  | Event.slackPost => true
  | _ => false

/-- reaper.py lines 226-238: the instance-listing loop, consuming the
pagination chain response by response (the code passes each `NextToken`
into the next request) and stopping at the first response without a
token.  Returns the collected instances and the remote-call events. -/
def instance_listing_run : List InstResp → List Instance × List Event
  | [] => ([], [])
  | r :: rest =>
    let insts := r.Reservations.flatten
    match r.NextToken with
    | none => (insts, [Event.describeInstances])
    | some _ =>
      let tail := instance_listing_run rest
      (insts ++ tail.1, Event.describeInstances :: tail.2)

/-- The notification environment of reaper.py lines 20-34: the two
environment variables `slack_send` reads. -/
structure Env where
  webhook : Option String
  channel : Option String

/-- reaper.py lines 23-38: `slack_send`.  Missing webhook raises before
any network activity; otherwise one POST is made.  The boolean reports
whether the exception was raised. -/
def slack_send_run (env : Env) : List Event × Bool :=
  match env.webhook with
  | none => ([Event.raisedMissingWebhook], true)
  | some _ => ([Event.slackPost], false)

/-- The metric fetches performed by one evaluation of
`Instance.idle_period_hours` (reaper.py lines 97-101): Python evaluates
`min(cpu, disk, network)` left to right, and the disk property consults
the `Disk*Ops` names only when the `EBS*Ops` result is negative. -/
def idle_eval_events (i : Instance) : List Event :=
  [Event.getMetric "CPUUtilization"] ++
  [Event.getMetric "EBSReadOps"] ++
  (if get_idle_period_hours_for_metric (i.fetch "EBSReadOps" "Count") i.min_disk < 0 then
      [Event.getMetric "DiskReadOps"] else []) ++
  [Event.getMetric "EBSWriteOps"] ++
  (if get_idle_period_hours_for_metric (i.fetch "EBSWriteOps" "Count") i.min_disk < 0 then
      [Event.getMetric "DiskWriteOps"] else []) ++
  [Event.getMetric "NetworkPacketsIn", Event.getMetric "NetworkPacketsOut"]

/-- reaper.py lines 255-264 for one in-scope instance (verbose off).
`idle_period_hours` is an uncached property, so it is recomputed for the
stop test, again for the warning test, and a third time inside the
warning message (reaper.py line 41).  The boolean reports whether
`slack_send` raised. -/
def process_instance (env : Env) (stop_timeout warning_timeout : ℚ) (i : Instance) :
    List Event × Bool :=
  if i.idle_period_hours < stop_timeout then
    if i.idle_period_hours ≥ warning_timeout then
      let s := slack_send_run env
      (idle_eval_events i ++ idle_eval_events i ++ idle_eval_events i ++ s.1, s.2)
    else
      (idle_eval_events i ++ idle_eval_events i, false)
  else
    (idle_eval_events i ++ [Event.stoppedInstance], false)

/-- reaper.py lines 255-264: the sequential instance loop.  An uncaught
exception from `slack_send` aborts the loop, leaving the remaining
instances unprocessed. -/
def process_loop (env : Env) (stop_timeout warning_timeout : ℚ) (include_stopped : Bool) :
    List Instance → List Event
  | [] => []
  | i :: rest =>
    if i.is_running || include_stopped then
      let p := process_instance env stop_timeout warning_timeout i
      if p.2 then p.1
      else p.1 ++ process_loop env stop_timeout warning_timeout include_stopped rest
    else process_loop env stop_timeout warning_timeout include_stopped rest

/-- reaper.py lines 207-271: `reaper` (verbose off) as an event trace.
The two timeout validations run before the EC2 client is even created;
then the paginated listing; then the per-instance loop. -/
def reaper_run (env : Env) (resps : List InstResp)
    (stop_instance_idle_timeout_hours warning_idle_timeout_hours : ℚ)
    (include_stopped : Bool) : List Event :=
  if stop_instance_idle_timeout_hours > REPORTING_LOOKBACK_TIME_HOURS then
    [Event.raisedStopTimeoutTooLong]
  else if warning_idle_timeout_hours > REPORTING_LOOKBACK_TIME_HOURS then
    [Event.raisedWarningTimeoutTooLong]
  else
    let lr := instance_listing_run resps
    lr.2 ++ process_loop env stop_instance_idle_timeout_hours warning_idle_timeout_hours
      include_stopped lr.1

/-! Helper lemmas about the idle-run scan and the sorted timestamp list. -/

lemma find_idle_start_nil (d : ℚ) : find_idle_start d [] = d := rfl

lemma find_idle_start_single (d x : ℚ) : find_idle_start d [x] = d := rfl

lemma find_idle_start_cons_cons (d x y : ℚ) (t : List ℚ) :
    find_idle_start d (x :: y :: t) =
      if x - y > REPORTING_PERIOD_SECS then x else find_idle_start d (y :: t) := rfl

lemma find_idle_start_mem (l : List ℚ) (d : ℚ) :
    find_idle_start d l = d ∨ find_idle_start d l ∈ l := by
  induction l with
  | nil => exact Or.inl rfl
  | cons x t ih =>
    cases t with
    | nil => exact Or.inl rfl
    | cons y t2 =>
      rw [find_idle_start_cons_cons]
      by_cases h : x - y > REPORTING_PERIOD_SECS
      · rw [if_pos h]; exact Or.inr (List.mem_cons_self _ _)
      · rw [if_neg h]
        rcases ih with h1 | h1
        · exact Or.inl h1
        · exact Or.inr (List.mem_cons_of_mem _ h1)

lemma getLastD_mem {α : Type} (l : List α) (d : α) (h : l ≠ []) : l.getLastD d ∈ l := by
  induction l generalizing d with
  | nil => exact absurd rfl h
  | cons x t ih =>
    cases t with
    | nil => simp [List.getLastD]
    | cons y t2 =>
      have hc : (x :: y :: t2).getLastD d = (y :: t2).getLastD x := rfl
      rw [hc]
      exact List.mem_cons_of_mem _ (ih x (by simp))

lemma sorted_idle_timestamps_sorted (dps : List Datapoint) (th : ℚ) :
    List.Sorted (fun a b : ℚ => a ≥ b) (sorted_idle_timestamps dps th) :=
  List.sorted_insertionSort _ _

lemma sorted_idle_timestamps_perm (dps : List Datapoint) (th : ℚ) :
    List.Perm (sorted_idle_timestamps dps th) (idle_timestamps dps th) :=
  List.perm_insertionSort _ _

lemma head_ge_of_sorted {a b : ℚ} {t : List ℚ}
    (hs : List.Sorted (fun x y : ℚ => x ≥ y) (a :: t)) (hb : b ∈ a :: t) : a ≥ b := by
  rcases List.mem_cons.mp hb with h | h
  · exact ge_of_eq h.symm
  · exact List.rel_of_sorted_cons hs b h

lemma sorted_idle_timestamps_ne_nil {dps : List Datapoint} {th : ℚ}
    (h : idle_timestamps dps th ≠ []) : sorted_idle_timestamps dps th ≠ [] := by
  intro hs
  have hp := sorted_idle_timestamps_perm dps th
  rw [hs] at hp
  exact h hp.symm.eq_nil

lemma get_idle_nonneg (dps : List Datapoint) (th : ℚ) (h : dps ≠ []) :
    0 ≤ get_idle_period_hours_for_metric dps th := by
  unfold get_idle_period_hours_for_metric
  rw [if_neg (by simpa [List.isEmpty_iff] using h)]
  by_cases hid : idle_timestamps dps th = []
  · rw [if_pos (by simpa [List.isEmpty_iff] using hid)]
  · rw [if_neg (by simpa [List.isEmpty_iff] using hid)]
    have hne : sorted_idle_timestamps dps th ≠ [] := sorted_idle_timestamps_ne_nil hid
    rcases hl : sorted_idle_timestamps dps th with _ | ⟨a, t⟩
    · exact absurd hl hne
    · have hmem : find_idle_start ((a :: t).getLastD 0) (a :: t) ∈ a :: t := by
        rcases find_idle_start_mem (a :: t) ((a :: t).getLastD 0) with h1 | h1
        · rw [h1]; exact getLastD_mem _ _ (by simp)
        · exact h1
      have hs : List.Sorted (fun x y : ℚ => x ≥ y) (a :: t) := by
        have := sorted_idle_timestamps_sorted dps th
        rwa [hl] at this
      have hge : a ≥ find_idle_start ((a :: t).getLastD 0) (a :: t) :=
        head_ge_of_sorted hs hmem
      show 0 ≤ ((a :: t).headD 0 - find_idle_start ((a :: t).getLastD 0) (a :: t)) / 3600
      have hh : ((a :: t).headD 0 : ℚ) = a := rfl
      rw [hh]
      exact div_nonneg (sub_nonneg.mpr hge) (by norm_num)

lemma get_idle_sentinel (dps : List Datapoint) (th : ℚ) :
    get_idle_period_hours_for_metric dps th = -1 ∨
      0 ≤ get_idle_period_hours_for_metric dps th := by
  rcases eq_or_ne dps [] with h | h
  · left; simp [get_idle_period_hours_for_metric, h]
  · right; exact get_idle_nonneg dps th h

lemma get_idle_neg_iff (dps : List Datapoint) (th : ℚ) :
    get_idle_period_hours_for_metric dps th < 0 ↔
      get_idle_period_hours_for_metric dps th = -1 := by
  constructor
  · intro h
    rcases get_idle_sentinel dps th with h1 | h1
    · exact h1
    · exact absurd h (not_lt.mpr h1)
  · intro h; rw [h]; norm_num

/-- Specification-side characterisation of the start of the most recent
unbroken idle run inside a descending-sorted timestamp list: either some
adjacent pair has a gap strictly greater than one reporting period, no
earlier adjacent pair does, and the run starts at the more recent element
of that first breaking pair; or no adjacent pair breaks (every gap is at
most one period, so a gap exactly equal to the period is not a break) and
the run starts at the oldest timestamp. -/
def IsIdleRunStart (l : List ℚ) (s : ℚ) : Prop :=
  (∃ pre p rest, l = pre ++ s :: p :: rest ∧
      s - p > REPORTING_PERIOD_SECS ∧
      List.Chain' (fun a b => a - b ≤ REPORTING_PERIOD_SECS) (pre ++ [s])) ∨
  (List.Chain' (fun a b => a - b ≤ REPORTING_PERIOD_SECS) l ∧ s = l.getLastD 0)

lemma head?_append_cons {α : Type} (l₁ l₂ l₃ : List α) (a : α) :
    (l₁ ++ a :: l₂).head? = (l₁ ++ a :: l₃).head? := by
  cases l₁ <;> rfl

lemma find_idle_start_spec (l : List ℚ) (h : l ≠ []) :
    IsIdleRunStart l (find_idle_start (l.getLastD 0) l) := by
  induction l with
  | nil => exact absurd rfl h
  | cons x t ih =>
    cases t with
    | nil => exact Or.inr ⟨List.chain'_singleton x, rfl⟩
    | cons y t2 =>
      rw [find_idle_start_cons_cons]
      by_cases hb : x - y > REPORTING_PERIOD_SECS
      · rw [if_pos hb]
        exact Or.inl ⟨[], y, t2, rfl, hb, List.chain'_singleton x⟩
      · rw [if_neg hb]
        have hd : ((x :: y :: t2).getLastD 0 : ℚ) = (y :: t2).getLastD 0 := by
          cases t2 <;> rfl
        rw [hd]
        rcases ih (by simp) with ⟨pre, p, rest, heq, hgap, hch⟩ | ⟨hch, hs⟩
        · left
          refine ⟨x :: pre, p, rest, by rw [List.cons_append, ← heq], hgap, ?_⟩
          have hhd : (pre ++ [find_idle_start ((y :: t2).getLastD 0) (y :: t2)]).head?
              = some y := by
            rw [head?_append_cons pre [] (p :: rest) _, ← heq]
            rfl
          rw [List.cons_append, List.chain'_cons']
          refine ⟨?_, hch⟩
          intro z hz
          rw [hhd] at hz
          cases hz
          exact not_lt.mp hb
        · right
          constructor
          · rw [List.chain'_cons']
            exact ⟨fun z hz => by cases hz; exact not_lt.mp hb, hch⟩
          · rw [hs, hd]

lemma find_idle_start_all_near (a : ℚ) :
    ∀ (l : List ℚ), (∀ t ∈ l, t = a ∨ a - t > REPORTING_PERIOD_SECS) →
      find_idle_start ((a :: l).getLastD 0) (a :: l) = a := by
  intro l
  induction l with
  | nil => intro _; rfl
  | cons b t2 ih =>
    intro hp
    rw [find_idle_start_cons_cons]
    by_cases hb : a - b > REPORTING_PERIOD_SECS
    · rw [if_pos hb]
    · rw [if_neg hb]
      have hba : b = a := by
        rcases hp b (List.mem_cons_self b t2) with h | h
        · exact h
        · exact absurd h hb
      subst hba
      have hd : ((b :: b :: t2).getLastD 0 : ℚ) = (b :: t2).getLastD 0 := by
        cases t2 <;> rfl
      rw [hd]
      exact ih fun t ht => hp t (List.mem_cons_of_mem _ ht)

lemma idle_timestamps_nil (th : ℚ) : idle_timestamps [] th = [] := rfl

lemma get_idle_eq_of_ne_nil (dps : List Datapoint) (th : ℚ) (hdps : dps ≠ [])
    (h : idle_timestamps dps th ≠ []) :
    get_idle_period_hours_for_metric dps th =
      ((sorted_idle_timestamps dps th).headD 0 -
        find_idle_start ((sorted_idle_timestamps dps th).getLastD 0)
          (sorted_idle_timestamps dps th)) / 3600 := by
  unfold get_idle_period_hours_for_metric
  rw [if_neg (by simpa [List.isEmpty_iff] using hdps),
      if_neg (by simpa [List.isEmpty_iff] using h)]

/-- C4: for a metric series with zero samples the calculator returns the
code's `Unknown` sentinel `-1` (reaper.py lines 142-143), a value
distinct from `0`; and every series that does have samples yields a
non-negative result, so the sentinel never collides with a genuine idle
duration and no genuine idle duration is negative. -/
theorem computeIdleHours_empty_unknown (dps : List Datapoint) (th : ℚ) (h : dps = []) :
    get_idle_period_hours_for_metric dps th = -1 ∧
    get_idle_period_hours_for_metric dps th ≠ 0 ∧
    ∀ (dps2 : List Datapoint) (th2 : ℚ), dps2 ≠ [] →
      0 ≤ get_idle_period_hours_for_metric dps2 th2 := by
  subst h
  refine ⟨rfl, by norm_num [get_idle_period_hours_for_metric], ?_⟩
  exact fun dps2 th2 h2 => get_idle_nonneg dps2 th2 h2

/-- Witness for `computeIdleHours_empty_unknown` at the empty series. -/
theorem computeIdleHours_empty_unknown_witness :
    get_idle_period_hours_for_metric [] 3 = -1 ∧
    get_idle_period_hours_for_metric [] 3 ≠ 0 ∧
    ∀ (dps2 : List Datapoint) (th2 : ℚ), dps2 ≠ [] →
      0 ≤ get_idle_period_hours_for_metric dps2 th2 :=
  computeIdleHours_empty_unknown [] 3 rfl

/-- C2: for a series with at least one below-threshold sample, the
result is `(most recent idle timestamp - run start) / 3600` where the
run start is the more recent element of the first descending pair whose
gap strictly exceeds one reporting period — a gap exactly equal to the
period is not a break — or the oldest idle timestamp when no pair
breaks (`IsIdleRunStart`); the head of the descending sort is the most
recent idle timestamp, and the result is non-negative. -/
theorem computeIdleHours_run_characterisation (dps : List Datapoint) (th : ℚ)
    (h : idle_timestamps dps th ≠ []) :
    ∃ s : ℚ,
      IsIdleRunStart (sorted_idle_timestamps dps th) s ∧
      s ∈ idle_timestamps dps th ∧
      (sorted_idle_timestamps dps th).headD 0 ∈ idle_timestamps dps th ∧
      (∀ t ∈ idle_timestamps dps th, t ≤ (sorted_idle_timestamps dps th).headD 0) ∧
      get_idle_period_hours_for_metric dps th
        = ((sorted_idle_timestamps dps th).headD 0 - s) / 3600 ∧
      0 ≤ get_idle_period_hours_for_metric dps th := by
  have hdps : dps ≠ [] := by
    intro hd; subst hd; exact h rfl
  have hne : sorted_idle_timestamps dps th ≠ [] := sorted_idle_timestamps_ne_nil h
  have hperm := sorted_idle_timestamps_perm dps th
  refine ⟨find_idle_start ((sorted_idle_timestamps dps th).getLastD 0)
      (sorted_idle_timestamps dps th), find_idle_start_spec _ hne, ?_, ?_, ?_,
      get_idle_eq_of_ne_nil dps th hdps h, get_idle_nonneg dps th hdps⟩
  · have hm : find_idle_start ((sorted_idle_timestamps dps th).getLastD 0)
        (sorted_idle_timestamps dps th) ∈ sorted_idle_timestamps dps th := by
      rcases find_idle_start_mem (sorted_idle_timestamps dps th)
          ((sorted_idle_timestamps dps th).getLastD 0) with h1 | h1
      · rw [h1]; exact getLastD_mem _ _ hne
      · exact h1
    exact hperm.subset hm
  · rcases hl : sorted_idle_timestamps dps th with _ | ⟨a, t⟩
    · exact absurd hl hne
    · rw [hl] at hperm
      exact hperm.subset (List.mem_cons_self a t)
  · intro t ht
    rcases hl : sorted_idle_timestamps dps th with _ | ⟨a, t2⟩
    · exact absurd hl hne
    · rw [hl] at hperm
      have hs : List.Sorted (fun x y : ℚ => x ≥ y) (a :: t2) := by
        have := sorted_idle_timestamps_sorted dps th; rwa [hl] at this
      exact head_ge_of_sorted hs (hperm.symm.subset ht)

/-- Witness for `computeIdleHours_run_characterisation` on a concrete
three-sample series idle at seconds 0, 300 and 600. -/
theorem computeIdleHours_run_characterisation_witness :
    idle_timestamps [⟨600, 0⟩, ⟨300, 0⟩, ⟨0, 0⟩] 1 ≠ [] ∧
    ∃ s : ℚ,
      IsIdleRunStart (sorted_idle_timestamps [⟨600, 0⟩, ⟨300, 0⟩, ⟨0, 0⟩] 1) s ∧
      s ∈ idle_timestamps [⟨600, 0⟩, ⟨300, 0⟩, ⟨0, 0⟩] 1 ∧
      (sorted_idle_timestamps [⟨600, 0⟩, ⟨300, 0⟩, ⟨0, 0⟩] 1).headD 0
        ∈ idle_timestamps [⟨600, 0⟩, ⟨300, 0⟩, ⟨0, 0⟩] 1 ∧
      (∀ t ∈ idle_timestamps [⟨600, 0⟩, ⟨300, 0⟩, ⟨0, 0⟩] 1,
        t ≤ (sorted_idle_timestamps [⟨600, 0⟩, ⟨300, 0⟩, ⟨0, 0⟩] 1).headD 0) ∧
      get_idle_period_hours_for_metric [⟨600, 0⟩, ⟨300, 0⟩, ⟨0, 0⟩] 1
        = ((sorted_idle_timestamps [⟨600, 0⟩, ⟨300, 0⟩, ⟨0, 0⟩] 1).headD 0 - s) / 3600 ∧
      0 ≤ get_idle_period_hours_for_metric [⟨600, 0⟩, ⟨300, 0⟩, ⟨0, 0⟩] 1 :=
  ⟨by decide, computeIdleHours_run_characterisation [⟨600, 0⟩, ⟨300, 0⟩, ⟨0, 0⟩] 1 (by decide)⟩

/-- C5: when the most recent below-threshold timestamp has no other
below-threshold timestamp strictly within one reporting period of it
(every other idle timestamp either equals it or lies more than one
period earlier), the idle run degenerates to that single point and the
result is `0`.  The single-idle-sample series is the special case where
the quantified hypotheses hold vacuously. -/
theorem computeIdleHours_isolated_recent (dps : List Datapoint) (th t0 : ℚ)
    (hmem : t0 ∈ idle_timestamps dps th)
    (hmax : ∀ t ∈ idle_timestamps dps th, t ≤ t0)
    (hiso : ∀ t ∈ idle_timestamps dps th, t = t0 ∨ t0 - t > REPORTING_PERIOD_SECS) :
    get_idle_period_hours_for_metric dps th = 0 := by
  have hne : idle_timestamps dps th ≠ [] := by
    intro hc; rw [hc] at hmem; cases hmem
  have hdps : dps ≠ [] := by
    intro hd; subst hd; exact hne rfl
  rw [get_idle_eq_of_ne_nil dps th hdps hne]
  have hperm := sorted_idle_timestamps_perm dps th
  rcases hl : sorted_idle_timestamps dps th with _ | ⟨a, t⟩
  · exact absurd hl (sorted_idle_timestamps_ne_nil hne)
  · rw [hl] at hperm
    have ha_mem : a ∈ idle_timestamps dps th := hperm.subset (List.mem_cons_self a t)
    have ht0_mem : t0 ∈ a :: t := hperm.symm.subset hmem
    have hs : List.Sorted (fun x y : ℚ => x ≥ y) (a :: t) := by
      have := sorted_idle_timestamps_sorted dps th; rwa [hl] at this
    have hat0 : a = t0 := le_antisymm (hmax a ha_mem) (head_ge_of_sorted hs ht0_mem)
    have hfind : find_idle_start ((a :: t).getLastD 0) (a :: t) = a := by
      apply find_idle_start_all_near
      intro z hz
      have hz2 := hiso z (hperm.subset (List.mem_cons_of_mem _ hz))
      rw [hat0]
      exact hz2
    rw [hfind]
    have hh : ((a :: t).headD 0 : ℚ) = a := rfl
    rw [hh, sub_self, zero_div]

/-- Witness for `computeIdleHours_isolated_recent` on the claim's
scenario: samples below threshold at minutes 0, 5, 10, above at minute
15, below again at minute 60; the result is `0`. -/
theorem computeIdleHours_isolated_recent_witness :
    ((3600 : ℚ) ∈ idle_timestamps [⟨3600, 0⟩, ⟨900, 5⟩, ⟨600, 0⟩, ⟨300, 0⟩, ⟨0, 0⟩] 1) ∧
    (∀ t ∈ idle_timestamps [⟨3600, 0⟩, ⟨900, 5⟩, ⟨600, 0⟩, ⟨300, 0⟩, ⟨0, 0⟩] 1, t ≤ 3600) ∧
    (∀ t ∈ idle_timestamps [⟨3600, 0⟩, ⟨900, 5⟩, ⟨600, 0⟩, ⟨300, 0⟩, ⟨0, 0⟩] 1,
      t = 3600 ∨ 3600 - t > REPORTING_PERIOD_SECS) ∧
    get_idle_period_hours_for_metric [⟨3600, 0⟩, ⟨900, 5⟩, ⟨600, 0⟩, ⟨300, 0⟩, ⟨0, 0⟩] 1 = 0 := by
  have hids : idle_timestamps [⟨3600, 0⟩, ⟨900, 5⟩, ⟨600, 0⟩, ⟨300, 0⟩, ⟨0, 0⟩] 1
      = [3600, 600, 300, 0] := by decide
  have hiso : ∀ t ∈ idle_timestamps [⟨3600, 0⟩, ⟨900, 5⟩, ⟨600, 0⟩, ⟨300, 0⟩, ⟨0, 0⟩] 1,
      t = 3600 ∨ (3600 : ℚ) - t > REPORTING_PERIOD_SECS := by
    rw [hids]
    intro t ht
    fin_cases ht <;> norm_num [REPORTING_PERIOD_SECS]
  exact ⟨by decide, by decide, hiso,
    computeIdleHours_isolated_recent _ 1 3600 (by decide) (by decide) hiso⟩

/-! A family of concrete metric series: `idleSeries n` holds `n + 1`
datapoints at exact reporting-period spacing, timestamps `n * 300` down
to `0`, every average `0`.  Used to realise exact idle durations in
concrete scenarios. -/

def idleSeries : Nat → List Datapoint
  | 0 => [⟨0, 0⟩]
  | n + 1 => ⟨(n + 1 : ℚ) * 300, 0⟩ :: idleSeries n

lemma idleSeries_average (n : Nat) : ∀ dp ∈ idleSeries n, dp.Average = 0 := by
  induction n with
  | zero =>
    intro dp h
    simp only [idleSeries, List.mem_singleton] at h
    rw [h]
  | succ k ih =>
    intro dp h
    simp only [idleSeries, List.mem_cons] at h
    rcases h with h1 | h1
    · rw [h1]
    · exact ih dp h1

lemma idle_timestamps_all_idle (dps : List Datapoint) (th : ℚ)
    (h : ∀ dp ∈ dps, dp.Average < th) :
    idle_timestamps dps th = dps.map Datapoint.Timestamp := by
  unfold idle_timestamps
  rw [List.filter_eq_self.mpr fun a ha => decide_eq_true (h a ha)]

lemma idleSeries_ts_le (n : Nat) :
    ∀ b ∈ (idleSeries n).map Datapoint.Timestamp, b ≤ (n : ℚ) * 300 := by
  induction n with
  | zero =>
    intro b hb
    simp only [idleSeries, List.map_cons, List.map_nil, List.mem_singleton] at hb
    rw [hb]
    norm_num
  | succ k ih =>
    intro b hb
    simp only [idleSeries, List.map_cons, List.mem_cons] at hb
    rcases hb with h1 | h1
    · rw [h1]
      push_cast
      norm_num
    · have := ih b h1
      push_cast
      push_cast at this
      linarith

lemma idleSeries_sorted (n : Nat) :
    List.Sorted (fun a b : ℚ => a ≥ b) ((idleSeries n).map Datapoint.Timestamp) := by
  induction n with
  | zero => simp [idleSeries]
  | succ k ih =>
    simp only [idleSeries, List.map_cons]
    rw [List.sorted_cons]
    refine ⟨?_, ih⟩
    intro b hb
    have := idleSeries_ts_le k b hb
    have hk : ((k : ℚ)) * 300 ≤ ((k : ℚ) + 1) * 300 := by nlinarith [Nat.cast_nonneg (α := ℚ) k]
    exact le_trans this hk

lemma idleSeries_map_cons (n : Nat) :
    ∃ c rest, (idleSeries n).map Datapoint.Timestamp = c :: rest := by
  cases n with
  | zero => exact ⟨0, [], rfl⟩
  | succ k => exact ⟨((k : ℚ) + 1) * 300, (idleSeries k).map Datapoint.Timestamp, rfl⟩

lemma getLastD_irrel {α : Type} (c : α) (rest : List α) (x y : α) :
    (c :: rest).getLastD x = (c :: rest).getLastD y := by
  cases rest <;> rfl

lemma idleSeries_getLastD (n : Nat) :
    ((idleSeries n).map Datapoint.Timestamp).getLastD 0 = 0 := by
  induction n with
  | zero => rfl
  | succ k ih =>
    simp only [idleSeries, List.map_cons]
    obtain ⟨c, rest, hcr⟩ := idleSeries_map_cons k
    rw [hcr]
    have h1 : ((((k : ℚ) + 1) * 300) :: c :: rest).getLastD 0 = (c :: rest).getLastD (((k : ℚ) + 1) * 300) := rfl
    rw [h1, getLastD_irrel c rest _ 0, ← hcr]
    exact ih

lemma idleSeries_headD (n : Nat) :
    ((idleSeries n).map Datapoint.Timestamp).headD 0 = (n : ℚ) * 300 := by
  cases n with
  | zero => norm_num [idleSeries]
  | succ k =>
    show ((k : ℚ) + 1) * 300 = ((k + 1 : ℕ) : ℚ) * 300
    push_cast
    ring

lemma find_idle_start_idleSeries (n : Nat) (d : ℚ) :
    find_idle_start d ((idleSeries n).map Datapoint.Timestamp) = d := by
  induction n with
  | zero => rfl
  | succ k ih =>
    cases k with
    | zero =>
      simp only [idleSeries, List.map_cons, List.map_nil]
      rw [find_idle_start_cons_cons,
        if_neg (by push_cast [REPORTING_PERIOD_SECS]; linarith), find_idle_start_single]
    | succ j =>
      simp only [idleSeries, List.map_cons]
      rw [find_idle_start_cons_cons, if_neg (by push_cast [REPORTING_PERIOD_SECS]; linarith)]
      have ih2 := ih
      simp only [idleSeries, List.map_cons] at ih2
      exact ih2

lemma get_idle_idleSeries (n : Nat) (th : ℚ) (h : 0 < th) :
    get_idle_period_hours_for_metric (idleSeries n) th = (n : ℚ) * 300 / 3600 := by
  have hall : ∀ dp ∈ idleSeries n, dp.Average < th := fun dp hdp => by
    rw [idleSeries_average n dp hdp]; exact h
  have hids : idle_timestamps (idleSeries n) th = (idleSeries n).map Datapoint.Timestamp :=
    idle_timestamps_all_idle _ _ hall
  have hdps : idleSeries n ≠ [] := by cases n <;> simp [idleSeries]
  have hne : idle_timestamps (idleSeries n) th ≠ [] := by
    rw [hids]
    obtain ⟨c, rest, hcr⟩ := idleSeries_map_cons n
    rw [hcr]
    simp
  rw [get_idle_eq_of_ne_nil _ _ hdps hne]
  have hsorted_eq : sorted_idle_timestamps (idleSeries n) th
      = (idleSeries n).map Datapoint.Timestamp := by
    unfold sorted_idle_timestamps
    rw [hids]
    exact (idleSeries_sorted n).insertionSort_eq
  rw [hsorted_eq, idleSeries_getLastD, find_idle_start_idleSeries, idleSeries_headD, sub_zero]

lemma max_sentinel (a b : ℚ) (ha : a = -1 ∨ 0 ≤ a) (hb : b = -1 ∨ 0 ≤ b) :
    max a b = -1 ∨ 0 ≤ max a b := by
  rcases ha with h1 | h1
  · rcases hb with h2 | h2
    · left; rw [h1, h2, max_self]
    · right; exact le_max_of_le_right h2
  · right; exact le_max_of_le_left h1

lemma fallback_sentinel (p s : ℚ) (hs : s = -1 ∨ 0 ≤ s) :
    (if p < 0 then s else p) = -1 ∨ 0 ≤ (if p < 0 then s else p) := by
  by_cases h : p < 0
  · rw [if_pos h]; exact hs
  · rw [if_neg h]; right; exact not_lt.mp h

lemma cpu_idle_sentinel (i : Instance) :
    i.cpu_idle_period_hours = -1 ∨ 0 ≤ i.cpu_idle_period_hours :=
  get_idle_sentinel _ _

lemma network_idle_sentinel (i : Instance) :
    i.network_idle_period_hours = -1 ∨ 0 ≤ i.network_idle_period_hours :=
  max_sentinel _ _ (get_idle_sentinel _ _) (get_idle_sentinel _ _)

lemma disk_idle_sentinel (i : Instance) :
    i.disk_idle_period_hours = -1 ∨ 0 ≤ i.disk_idle_period_hours := by
  unfold Instance.disk_idle_period_hours
  exact max_sentinel _ _
    (fallback_sentinel _ _ (get_idle_sentinel _ _))
    (fallback_sentinel _ _ (get_idle_sentinel _ _))

lemma sentinel_ge (a : ℚ) (h : a = -1 ∨ 0 ≤ a) : -1 ≤ a := by
  rcases h with h1 | h1
  · rw [h1]
  · linarith

/-- C1, amended to what reaper.py lines 97-101 actually compute: the
effective idle value is the plain three-way minimum with `Unknown`
represented by `-1`, so it equals `-1` exactly when at least one
category is `Unknown` — an `Unknown` category is not excluded from the
minimum.  A `-1` effective value triggers no idle-based action (it is
below any non-negative warning timeout), and only when all three
categories are known is the effective value the minimum of the known
values (and non-negative). -/
theorem idle_period_hours_unknown_amended (i : Instance) (stopT warnT : ℚ)
    (h0 : 0 ≤ warnT) (h1 : warnT ≤ stopT) :
    (i.idle_period_hours = -1 ↔
      (i.cpu_idle_period_hours = -1 ∨ i.disk_idle_period_hours = -1 ∨
        i.network_idle_period_hours = -1)) ∧
    (i.idle_period_hours = -1 →
      reaper_action i.idle_period_hours stopT warnT = ReaperAction.noAction) ∧
    (i.cpu_idle_period_hours ≠ -1 → i.disk_idle_period_hours ≠ -1 →
      i.network_idle_period_hours ≠ -1 →
      0 ≤ i.idle_period_hours ∧
      i.idle_period_hours =
        min i.cpu_idle_period_hours
          (min i.disk_idle_period_hours i.network_idle_period_hours)) := by
  have hc := cpu_idle_sentinel i
  have hd := disk_idle_sentinel i
  have hn := network_idle_sentinel i
  refine ⟨⟨?_, ?_⟩, ?_, ?_⟩
  · intro h
    by_contra hcon
    push_neg at hcon
    obtain ⟨hc1, hd1, hn1⟩ := hcon
    have hc2 : 0 ≤ i.cpu_idle_period_hours := (hc.resolve_left hc1)
    have hd2 : 0 ≤ i.disk_idle_period_hours := (hd.resolve_left hd1)
    have hn2 : 0 ≤ i.network_idle_period_hours := (hn.resolve_left hn1)
    have : (0 : ℚ) ≤ i.idle_period_hours := le_min hc2 (le_min hd2 hn2)
    rw [h] at this
    norm_num at this
  · intro h
    unfold Instance.idle_period_hours
    have hcge := sentinel_ge _ hc
    have hdge := sentinel_ge _ hd
    have hnge := sentinel_ge _ hn
    have hge : -1 ≤ min i.cpu_idle_period_hours
        (min i.disk_idle_period_hours i.network_idle_period_hours) :=
      le_min hcge (le_min hdge hnge)
    rcases h with h | h | h
    · rw [h] at hge ⊢
      exact le_antisymm (min_le_left _ _) hge
    · rw [h] at hge ⊢
      refine le_antisymm (le_trans (min_le_right _ _) (min_le_left _ _)) hge
    · rw [h] at hge ⊢
      exact le_antisymm (le_trans (min_le_right _ _) (min_le_right _ _)) hge
  · intro h
    unfold reaper_action
    rw [h]
    rw [if_pos (by linarith), if_neg (by simp; linarith)]
  · intro hc1 hd1 hn1
    have hc2 : 0 ≤ i.cpu_idle_period_hours := (hc.resolve_left hc1)
    have hd2 : 0 ≤ i.disk_idle_period_hours := (hd.resolve_left hd1)
    have hn2 : 0 ≤ i.network_idle_period_hours := (hn.resolve_left hn1)
    exact ⟨le_min hc2 (le_min hd2 hn2), rfl⟩

/-- An instance whose CPU metric is entirely missing while its disk
metrics show an unbroken 8-hour idle run and its network metrics an
unbroken 12-hour idle run (96, resp. 144, reporting periods). -/
def cpuUnknownInstance : Instance where
  InstanceId := "i-00c1"
  InstanceType := "m1.small"
  stateName := "running"
  stateCode := 16
  Tags := []
  fetch := fun metricname _ =>
    if metricname = "CPUUtilization" then []
    else if metricname = "NetworkPacketsIn" ∨ metricname = "NetworkPacketsOut" then
      idleSeries 144
    else if metricname = "EBSReadOps" ∨ metricname = "EBSWriteOps" then idleSeries 96
    else []
  min_cpu := 3
  min_disk := 1
  min_network := 50

/-- C1 counterexample: on `cpuUnknownInstance` the per-category values
are exactly the claim's cpuIdle=Unknown (`-1`), diskIdle=8h,
networkIdle=12h, yet `Instance.idle_period_hours` is `-1`, not the
claimed `8`: the `Unknown` category is fed into the minimum rather than
excluded from it. -/
theorem idle_period_hours_counterexample :
    cpuUnknownInstance.cpu_idle_period_hours = -1 ∧
    cpuUnknownInstance.disk_idle_period_hours = 8 ∧
    cpuUnknownInstance.network_idle_period_hours = 12 ∧
    cpuUnknownInstance.idle_period_hours = -1 ∧
    cpuUnknownInstance.idle_period_hours ≠ 8 := by
  have hcpu : cpuUnknownInstance.cpu_idle_period_hours = -1 := rfl
  have hread : get_idle_period_hours_for_metric
      (cpuUnknownInstance.fetch "EBSReadOps" "Count") cpuUnknownInstance.min_disk = 8 := by
    have hf : cpuUnknownInstance.fetch "EBSReadOps" "Count" = idleSeries 96 := rfl
    have hm : cpuUnknownInstance.min_disk = 1 := rfl
    rw [hf, hm, get_idle_idleSeries 96 1 (by norm_num)]
    norm_num
  have hwrite : get_idle_period_hours_for_metric
      (cpuUnknownInstance.fetch "EBSWriteOps" "Count") cpuUnknownInstance.min_disk = 8 := by
    have hf : cpuUnknownInstance.fetch "EBSWriteOps" "Count" = idleSeries 96 := rfl
    have hm : cpuUnknownInstance.min_disk = 1 := rfl
    rw [hf, hm, get_idle_idleSeries 96 1 (by norm_num)]
    norm_num
  have hin : get_idle_period_hours_for_metric
      (cpuUnknownInstance.fetch "NetworkPacketsIn" "Count") cpuUnknownInstance.min_network = 12 := by
    have hf : cpuUnknownInstance.fetch "NetworkPacketsIn" "Count" = idleSeries 144 := rfl
    have hm : cpuUnknownInstance.min_network = 50 := rfl
    rw [hf, hm, get_idle_idleSeries 144 50 (by norm_num)]
    norm_num
  have hout : get_idle_period_hours_for_metric
      (cpuUnknownInstance.fetch "NetworkPacketsOut" "Count") cpuUnknownInstance.min_network = 12 := by
    have hf : cpuUnknownInstance.fetch "NetworkPacketsOut" "Count" = idleSeries 144 := rfl
    have hm : cpuUnknownInstance.min_network = 50 := rfl
    rw [hf, hm, get_idle_idleSeries 144 50 (by norm_num)]
    norm_num
  have hdisk : cpuUnknownInstance.disk_idle_period_hours = 8 := by
    unfold Instance.disk_idle_period_hours
    rw [hread, hwrite]
    norm_num
  have hnet : cpuUnknownInstance.network_idle_period_hours = 12 := by
    unfold Instance.network_idle_period_hours
    rw [hin, hout, max_self]
  have hidle : cpuUnknownInstance.idle_period_hours = -1 := by
    unfold Instance.idle_period_hours
    rw [hcpu, hdisk, hnet]
    rw [min_eq_left (by norm_num : (8 : ℚ) ≤ 12), min_eq_left (by norm_num : (-1 : ℚ) ≤ 8)]
  exact ⟨hcpu, hdisk, hnet, hidle, by rw [hidle]; norm_num⟩

/-- Witness for `idle_period_hours_unknown_amended`, applied to
`cpuUnknownInstance` with the default timeouts 6 and 4. -/
theorem idle_period_hours_unknown_amended_witness :
    (0 : ℚ) ≤ 4 ∧ (4 : ℚ) ≤ 6 ∧
    ((cpuUnknownInstance.idle_period_hours = -1 ↔
      (cpuUnknownInstance.cpu_idle_period_hours = -1 ∨
        cpuUnknownInstance.disk_idle_period_hours = -1 ∨
        cpuUnknownInstance.network_idle_period_hours = -1)) ∧
    (cpuUnknownInstance.idle_period_hours = -1 →
      reaper_action cpuUnknownInstance.idle_period_hours 6 4 = ReaperAction.noAction) ∧
    (cpuUnknownInstance.cpu_idle_period_hours ≠ -1 →
      cpuUnknownInstance.disk_idle_period_hours ≠ -1 →
      cpuUnknownInstance.network_idle_period_hours ≠ -1 →
      0 ≤ cpuUnknownInstance.idle_period_hours ∧
      cpuUnknownInstance.idle_period_hours =
        min cpuUnknownInstance.cpu_idle_period_hours
          (min cpuUnknownInstance.disk_idle_period_hours
            cpuUnknownInstance.network_idle_period_hours))) :=
  ⟨by norm_num, by norm_num,
    idle_period_hours_unknown_amended cpuUnknownInstance 6 4 (by norm_num) (by norm_num)⟩

/-- C3: for the threshold logic of reaper.py lines 258-264 with
`0 ≤ warningTimeout ≤ stopTimeout`, a warning is emitted exactly when
`warningTimeout ≤ idle < stopTimeout`, a stop exactly when
`idle ≥ stopTimeout`, nothing when `idle < warningTimeout`, never both a
warning and a stop; the `Unknown` effective value (`-1`) yields no
action; and the claim's concrete triples behave as stated. -/
theorem threshold_evaluator_decision (idle stopT warnT : ℚ)
    (h0 : 0 ≤ warnT) (h1 : warnT ≤ stopT) :
    (reaper_action idle stopT warnT = ReaperAction.warn ↔ warnT ≤ idle ∧ idle < stopT) ∧
    (reaper_action idle stopT warnT = ReaperAction.stop ↔ stopT ≤ idle) ∧
    (idle < warnT → reaper_action idle stopT warnT = ReaperAction.noAction) ∧
    ¬(reaper_action idle stopT warnT = ReaperAction.warn ∧
      reaper_action idle stopT warnT = ReaperAction.stop) ∧
    reaper_action (-1) stopT warnT = ReaperAction.noAction ∧
    reaper_action 5 6 4 = ReaperAction.warn ∧
    reaper_action 7 6 4 = ReaperAction.stop ∧
    reaper_action 3 6 4 = ReaperAction.noAction := by
  refine ⟨?_, ?_, ?_, ?_, ?_, ?_, ?_, ?_⟩
  · unfold reaper_action
    by_cases hs : idle < stopT
    · rw [if_pos hs]
      by_cases hw : idle ≥ warnT
      · rw [if_pos hw]
        simp [hs, hw]
      · rw [if_neg hw]
        simp only [ge_iff_le, not_le] at hw
        constructor
        · intro hc; exact absurd hc (by simp)
        · intro hc; exact absurd hc.1 (not_le.mpr hw)
    · rw [if_neg hs]
      constructor
      · intro hc; exact absurd hc (by simp)
      · intro hc; exact absurd hc.2 hs
  · unfold reaper_action
    by_cases hs : idle < stopT
    · rw [if_pos hs]
      by_cases hw : idle ≥ warnT
      · rw [if_pos hw]
        constructor
        · intro hc; exact absurd hc (by simp)
        · intro hc; exact absurd hs (not_lt.mpr hc)
      · rw [if_neg hw]
        constructor
        · intro hc; exact absurd hc (by simp)
        · intro hc; exact absurd hs (not_lt.mpr hc)
    · rw [if_neg hs]
      simp [not_lt.mp hs]
  · intro h
    unfold reaper_action
    rw [if_pos (lt_of_lt_of_le h h1), if_neg (not_le.mpr h)]
  · intro hc
    have := hc.1.symm.trans hc.2
    exact absurd this (by simp)
  · unfold reaper_action
    rw [if_pos (by linarith), if_neg (by simp; linarith)]
  · unfold reaper_action
    rw [if_pos (by norm_num), if_pos (by norm_num)]
  · unfold reaper_action
    rw [if_neg (by norm_num)]
  · unfold reaper_action
    rw [if_pos (by norm_num), if_neg (by norm_num)]

/-- Witness for `threshold_evaluator_decision` at the default timeouts
`stopTimeout = 6`, `warningTimeout = 4` and `idle = 5`. -/
theorem threshold_evaluator_decision_witness :
    (0 : ℚ) ≤ 4 ∧ (4 : ℚ) ≤ 6 ∧
    ((reaper_action 5 6 4 = ReaperAction.warn ↔ (4 : ℚ) ≤ 5 ∧ (5 : ℚ) < 6) ∧
    (reaper_action 5 6 4 = ReaperAction.stop ↔ (6 : ℚ) ≤ 5) ∧
    ((5 : ℚ) < 4 → reaper_action 5 6 4 = ReaperAction.noAction) ∧
    ¬(reaper_action 5 6 4 = ReaperAction.warn ∧ reaper_action 5 6 4 = ReaperAction.stop) ∧
    reaper_action (-1) 6 4 = ReaperAction.noAction ∧
    reaper_action 5 6 4 = ReaperAction.warn ∧
    reaper_action 7 6 4 = ReaperAction.stop ∧
    reaper_action 3 6 4 = ReaperAction.noAction) :=
  ⟨by norm_num, by norm_num, threshold_evaluator_decision 5 6 4 (by norm_num) (by norm_num)⟩

lemma fallback_guard_eq (p s : ℚ) (hp : p = -1 ∨ 0 ≤ p) :
    (if p < 0 then s else p) = if p = -1 then s else p := by
  rcases hp with h | h
  · rw [if_pos (by rw [h]; norm_num), if_pos h]
  · rw [if_neg (not_lt.mpr h), if_neg]
    intro hc
    rw [hc] at h
    norm_num at h

/-- C6: the network idle duration is the maximum of the packets-in and
packets-out idle durations, and the disk idle duration is the maximum of
a read component and a write component, where each component uses the
primary `EBS*Ops` metric and falls back to the secondary `Disk*Ops`
metric exactly when the primary result is the `Unknown` sentinel `-1`
(the code's `< 0` guard coincides with `= -1` because every result is
either `-1` or non-negative). -/
theorem aggregator_combination (i : Instance) :
    i.network_idle_period_hours =
      max (get_idle_period_hours_for_metric (i.fetch "NetworkPacketsIn" "Count") i.min_network)
        (get_idle_period_hours_for_metric (i.fetch "NetworkPacketsOut" "Count") i.min_network) ∧
    i.disk_idle_period_hours =
      max
        (if get_idle_period_hours_for_metric (i.fetch "EBSReadOps" "Count") i.min_disk = -1
          then get_idle_period_hours_for_metric (i.fetch "DiskReadOps" "Count") i.min_disk
          else get_idle_period_hours_for_metric (i.fetch "EBSReadOps" "Count") i.min_disk)
        (if get_idle_period_hours_for_metric (i.fetch "EBSWriteOps" "Count") i.min_disk = -1
          then get_idle_period_hours_for_metric (i.fetch "DiskWriteOps" "Count") i.min_disk
          else get_idle_period_hours_for_metric (i.fetch "EBSWriteOps" "Count") i.min_disk) := by
  refine ⟨rfl, ?_⟩
  show max
      (if get_idle_period_hours_for_metric (i.fetch "EBSReadOps" "Count") i.min_disk < 0
        then get_idle_period_hours_for_metric (i.fetch "DiskReadOps" "Count") i.min_disk
        else get_idle_period_hours_for_metric (i.fetch "EBSReadOps" "Count") i.min_disk)
      (if get_idle_period_hours_for_metric (i.fetch "EBSWriteOps" "Count") i.min_disk < 0
        then get_idle_period_hours_for_metric (i.fetch "DiskWriteOps" "Count") i.min_disk
        else get_idle_period_hours_for_metric (i.fetch "EBSWriteOps" "Count") i.min_disk) = _
  rw [fallback_guard_eq _ _ (get_idle_sentinel _ _), fallback_guard_eq _ _ (get_idle_sentinel _ _)]

/-- C9: each of the three volume checks of ebs.py lines 112-123 fires
exactly when its own strict threshold comparison holds, independently of
the other two; and the claim's scenario — 25 available volumes totalling
12000 GB, no large in-use volume — yields exactly the two distinct
warnings for the available count and the total size. -/
theorem ebs_threshold_warnings (vs : List Volume) :
    (EbsWarning.availableCount (vs.filter fun v => v.State == "available").length
        ∈ ebs_warnings vs ↔
      (vs.filter fun v => v.State == "available").length > MAX_AVAILABLE) ∧
    (EbsWarning.inUseOver200Count
        (vs.filter fun v => v.State == "in-use" && decide (v.Size > 200)).length
        ∈ ebs_warnings vs ↔
      (vs.filter fun v => v.State == "in-use" && decide (v.Size > 200)).length
        > MAX_IN_USE_OVER_200GB) ∧
    (EbsWarning.totalSize (vs.map Volume.Size).sum ∈ ebs_warnings vs ↔
      (vs.map Volume.Size).sum > MAX_EBS_SIZE) ∧
    ebs_warnings (List.replicate 25 ⟨"vol-a", "available", 480, none⟩)
      = [EbsWarning.availableCount 25, EbsWarning.totalSize 12000] := by
  refine ⟨?_, ?_, ?_, by decide⟩ <;>
    by_cases h1 : (vs.filter fun v => v.State == "available").length > MAX_AVAILABLE <;>
    by_cases h2 : (vs.filter fun v => v.State == "in-use" && decide (v.Size > 200)).length
      > MAX_IN_USE_OVER_200GB <;>
    by_cases h3 : (vs.map Volume.Size).sum > MAX_EBS_SIZE <;>
    simp [ebs_warnings, h1, h2, h3]

lemma find_name_tag_none (ts : List Tag) (h : ∀ t ∈ ts, t.Key ≠ "Name") :
    find_name_tag ts = none := by
  induction ts with
  | nil => rfl
  | cons t rest ih =>
    simp only [find_name_tag]
    rw [if_neg (h t (List.mem_cons_self t rest))]
    exact ih fun t2 ht2 => h t2 (List.mem_cons_of_mem _ ht2)

/-- C10: for a tag collection with no `Name` key the two resource kinds
disagree: `Volume.name` (ebs.py lines 18-25) yields the printable
sentinel `<No Name>` whether the `Tags` entry is absent or merely lacks
a `Name` key, while `Instance.name` (reaper.py lines 57-62) yields no
value; consequently `Instance.__str__` (reaper.py lines 169-170), which
applies a fixed-width format to the name, is undefined for such an
instance (`Instance.toStr` returns `none`, modelling the `TypeError`
Python raises). -/
theorem unnamed_name_disagreement (i : Instance) (v : Volume)
    (hno : ∀ t ∈ i.Tags, t.Key ≠ "Name")
    (hv : v.Tags = some i.Tags ∨ v.Tags = none) :
    v.name = "<No Name>" ∧ i.name = none ∧ i.toStr = none := by
  have hfind : find_name_tag i.Tags = none := find_name_tag_none _ hno
  have hname : i.name = none := hfind
  refine ⟨?_, hname, ?_⟩
  · unfold Volume.name
    rcases hv with h | h
    · rw [h]
      show (match find_name_tag i.Tags with
            | none => "<No Name>"
            | some n => n) = "<No Name>"
      rw [hfind]
    · rw [h]
  · unfold Instance.toStr
    rw [hname]

/-- An instance and a volume carrying the same single non-`Name` tag. -/
def unnamedInstance : Instance where
  InstanceId := "i-0un"
  InstanceType := "t2.micro"
  stateName := "stopped"
  stateCode := 80
  Tags := [⟨"env", "prod"⟩]
  fetch := fun _ _ => []
  min_cpu := 3
  min_disk := 1
  min_network := 50

/-- Witness for `unnamed_name_disagreement` on `unnamedInstance` and a
volume with the same tags. -/
theorem unnamed_name_disagreement_witness :
    (∀ t ∈ unnamedInstance.Tags, t.Key ≠ "Name") ∧
    ((⟨"vol-0un", "available", 100, some [⟨"env", "prod"⟩]⟩ : Volume).Tags
      = some unnamedInstance.Tags ∨
      (⟨"vol-0un", "available", 100, some [⟨"env", "prod"⟩]⟩ : Volume).Tags = none) ∧
    ((⟨"vol-0un", "available", 100, some [⟨"env", "prod"⟩]⟩ : Volume).name = "<No Name>" ∧
      unnamedInstance.name = none ∧ unnamedInstance.toStr = none) :=
  ⟨by decide, Or.inl rfl,
    unnamed_name_disagreement unnamedInstance _ (by decide) (Or.inl rfl)⟩

lemma tokensChained_cons {r s : InstResp} {rest : List InstResp}
    (h : tokensChained (r :: s :: rest) = true) :
    r.NextToken.isSome = true ∧ tokensChained (s :: rest) = true := by
  simpa [tokensChained, Bool.and_eq_true] using h

lemma instance_listing_run_drain :
    ∀ resps : List InstResp, tokensChained resps = true →
      (instance_listing_run resps).1 = (resps.map fun r => r.Reservations.flatten).flatten := by
  intro resps
  induction resps with
  | nil => intro _; rfl
  | cons r rest ih =>
    intro h
    cases rest with
    | nil => cases htoken : r.NextToken <;> simp [instance_listing_run, htoken]
    | cons s rest2 =>
      obtain ⟨h1, h2⟩ := tokensChained_cons h
      cases htoken : r.NextToken with
      | none => rw [htoken] at h1; simp at h1
      | some t =>
        have hrec := ih h2
        simp only [instance_listing_run, htoken] at hrec ⊢
        rw [hrec]
        simp

lemma ebs_listing_loop_stuck (resp : VolResp) (tok : String)
    (htok : resp.NextToken = some tok) :
    ∀ fuel acc, ebs_listing_loop resp fuel acc = none := by
  intro fuel
  induction fuel with
  | zero => intro _; rfl
  | succ k ih =>
    intro acc
    simp only [ebs_listing_loop, htok]
    exact ih _

/-- C8: the instance lister of reaper.py lines 226-238 passes each
continuation token on and so collects exactly the concatenation of all
pages of the response chain (every resource once, terminating); but the
volume lister of ebs.py lines 81-95 never sends its `nexttoken` back, so
whenever the (deterministic) response to its fixed query carries a
continuation token the loop never finishes on any amount of fuel. -/
theorem pagination_drain (resps : List InstResp) (h : tokensChained resps = true)
    (resp : VolResp) (tok : String) (htok : resp.NextToken = some tok) :
    (instance_listing_run resps).1
      = (resps.map fun r => r.Reservations.flatten).flatten ∧
    ∀ fuel acc, ebs_listing_loop resp fuel acc = none :=
  ⟨instance_listing_run_drain resps h, ebs_listing_loop_stuck resp tok htok⟩

/-- Witness for `pagination_drain`: a two-page instance chain and a
volume response carrying a continuation token. -/
theorem pagination_drain_witness :
    tokensChained [⟨[[unnamedInstance]], some "page-2"⟩, ⟨[[unnamedInstance]], none⟩] = true ∧
    (⟨[⟨"vol-w", "available", 100, none⟩], some "page-2"⟩ : VolResp).NextToken = some "page-2" ∧
    ((instance_listing_run [⟨[[unnamedInstance]], some "page-2"⟩, ⟨[[unnamedInstance]], none⟩]).1
      = ([⟨[[unnamedInstance]], some "page-2"⟩,
          (⟨[[unnamedInstance]], none⟩ : InstResp)].map fun r => r.Reservations.flatten).flatten ∧
    ∀ fuel acc,
      ebs_listing_loop ⟨[⟨"vol-w", "available", 100, none⟩], some "page-2"⟩ fuel acc = none) :=
  ⟨rfl, rfl, pagination_drain
    [⟨[[unnamedInstance]], some "page-2"⟩, ⟨[[unnamedInstance]], none⟩] rfl
    ⟨[⟨"vol-w", "available", 100, none⟩], some "page-2"⟩ "page-2" rfl⟩

/-- The notification environment with no webhook configured. -/
def noWebhookEnv : Env := ⟨none, none⟩

/-- A running instance each of whose metric series is the single idle
datapoint at timestamp 0, giving an effective idle duration of 0 hours. -/
def warnableInstance : Instance where
  InstanceId := "i-0wa"
  InstanceType := "t2.micro"
  stateName := "running"
  stateCode := 16
  Tags := []
  fetch := fun _ _ => [⟨0, 0⟩]
  min_cpu := 3
  min_disk := 1
  min_network := 50

/-- The one-page listing containing only `warnableInstance`. -/
def onePage : List InstResp := [⟨[[warnableInstance]], none⟩]

lemma get_idle_single_zero (th : ℚ) (h : 0 < th) :
    get_idle_period_hours_for_metric [⟨0, 0⟩] th = 0 := by
  have := get_idle_idleSeries 0 th h
  simpa [idleSeries] using this

lemma warnableInstance_idle : warnableInstance.idle_period_hours = 0 := by
  have hcpu : warnableInstance.cpu_idle_period_hours = 0 := get_idle_single_zero 3 (by norm_num)
  have hnet : warnableInstance.network_idle_period_hours = 0 := by
    unfold Instance.network_idle_period_hours
    rw [show get_idle_period_hours_for_metric
        (warnableInstance.fetch "NetworkPacketsIn" "Count") warnableInstance.min_network = 0 from
      get_idle_single_zero 50 (by norm_num)]
    rw [show get_idle_period_hours_for_metric
        (warnableInstance.fetch "NetworkPacketsOut" "Count") warnableInstance.min_network = 0 from
      get_idle_single_zero 50 (by norm_num)]
    exact max_self 0
  have hdisk : warnableInstance.disk_idle_period_hours = 0 := by
    unfold Instance.disk_idle_period_hours
    rw [show get_idle_period_hours_for_metric
        (warnableInstance.fetch "EBSReadOps" "Count") warnableInstance.min_disk = 0 from
      get_idle_single_zero 1 (by norm_num)]
    rw [show get_idle_period_hours_for_metric
        (warnableInstance.fetch "EBSWriteOps" "Count") warnableInstance.min_disk = 0 from
      get_idle_single_zero 1 (by norm_num)]
    norm_num
  unfold Instance.idle_period_hours
  rw [hcpu, hnet, hdisk]
  simp

lemma warnableInstance_events : idle_eval_events warnableInstance =
    [Event.getMetric "CPUUtilization", Event.getMetric "EBSReadOps",
      Event.getMetric "EBSWriteOps", Event.getMetric "NetworkPacketsIn",
      Event.getMetric "NetworkPacketsOut"] := by
  unfold idle_eval_events
  rw [show get_idle_period_hours_for_metric
      (warnableInstance.fetch "EBSReadOps" "Count") warnableInstance.min_disk = 0 from
    get_idle_single_zero 1 (by norm_num)]
  rw [show get_idle_period_hours_for_metric
      (warnableInstance.fetch "EBSWriteOps" "Count") warnableInstance.min_disk = 0 from
    get_idle_single_zero 1 (by norm_num)]
  norm_num

lemma warnableInstance_process :
    process_instance noWebhookEnv 48 0 warnableInstance =
      (idle_eval_events warnableInstance ++ idle_eval_events warnableInstance ++
        idle_eval_events warnableInstance ++ [Event.raisedMissingWebhook], true) := by
  unfold process_instance
  rw [if_pos (show warnableInstance.idle_period_hours < 48 by
        rw [warnableInstance_idle]; norm_num),
      if_pos (show warnableInstance.idle_period_hours ≥ 0 by rw [warnableInstance_idle])]
  rfl

/-- C7, amended to what the code does: the two timeout validations of
reaper.py lines 217-223 are fatal and raised before any remote call (the
run's whole trace is the single raised event and contains no remote
event); but the missing-webhook check lives inside `slack_send`
(reaper.py lines 23-28) and fires only when the first warning
notification is attempted — after the instance listing and that
instance's metric fetches — at which point the uncaught exception ends
the pass with the remaining instances unprocessed. -/
theorem config_error_timing (env : Env) (resps : List InstResp)
    (stopT warnT : ℚ) (inc : Bool) :
    (stopT > REPORTING_LOOKBACK_TIME_HOURS →
      reaper_run env resps stopT warnT inc = [Event.raisedStopTimeoutTooLong] ∧
      ∀ e ∈ reaper_run env resps stopT warnT inc, e.isRemote = false) ∧
    (stopT ≤ REPORTING_LOOKBACK_TIME_HOURS → warnT > REPORTING_LOOKBACK_TIME_HOURS →
      reaper_run env resps stopT warnT inc = [Event.raisedWarningTimeoutTooLong] ∧
      ∀ e ∈ reaper_run env resps stopT warnT inc, e.isRemote = false) ∧
    (env.webhook = none →
      ∀ (i : Instance) (rest : List Instance),
        (i.is_running || inc) = true →
        i.idle_period_hours < stopT → warnT ≤ i.idle_period_hours →
        process_loop env stopT warnT inc (i :: rest) =
          idle_eval_events i ++ idle_eval_events i ++ idle_eval_events i ++
            [Event.raisedMissingWebhook]) := by
  refine ⟨?_, ?_, ?_⟩
  · intro h
    have he : reaper_run env resps stopT warnT inc = [Event.raisedStopTimeoutTooLong] := by
      unfold reaper_run
      rw [if_pos h]
    refine ⟨he, ?_⟩
    rw [he]
    intro e he2
    rw [List.mem_singleton.mp he2]
    rfl
  · intro h1 h2
    have he : reaper_run env resps stopT warnT inc = [Event.raisedWarningTimeoutTooLong] := by
      unfold reaper_run
      rw [if_neg (not_lt.mpr h1), if_pos h2]
    refine ⟨he, ?_⟩
    rw [he]
    intro e he2
    rw [List.mem_singleton.mp he2]
    rfl
  · intro hw i rest hin hstop hwarn
    have hpi : process_instance env stopT warnT i =
        (idle_eval_events i ++ idle_eval_events i ++ idle_eval_events i ++
          [Event.raisedMissingWebhook], true) := by
      unfold process_instance
      rw [if_pos hstop, if_pos hwarn]
      unfold slack_send_run
      rw [hw]
    simp only [process_loop, hin, if_pos, hpi]

/-- C7 counterexample: with valid timeouts, no webhook configured and a
single warnable running instance, the missing-webhook configuration
error is the last event of the run, and remote calls — the instance
listing and metric fetches — precede it, so this configuration error is
not raised before remote calls are made. -/
theorem missing_webhook_raised_after_remote_calls :
    (reaper_run noWebhookEnv onePage 48 0 false).getLast? = some Event.raisedMissingWebhook ∧
    (reaper_run noWebhookEnv onePage 48 0 false).dropLast.any Event.isRemote = true ∧
    Event.describeInstances ∈ (reaper_run noWebhookEnv onePage 48 0 false).dropLast ∧
    Event.getMetric "CPUUtilization" ∈ (reaper_run noWebhookEnv onePage 48 0 false).dropLast := by
  have hloop : process_loop noWebhookEnv 48 0 false [warnableInstance] =
      idle_eval_events warnableInstance ++ idle_eval_events warnableInstance ++
        idle_eval_events warnableInstance ++ [Event.raisedMissingWebhook] := by
    simp only [process_loop, warnableInstance_process]
    rfl
  have htrace : reaper_run noWebhookEnv onePage 48 0 false =
      Event.describeInstances ::
        (idle_eval_events warnableInstance ++ idle_eval_events warnableInstance ++
          idle_eval_events warnableInstance ++ [Event.raisedMissingWebhook]) := by
    unfold reaper_run
    rw [if_neg (by norm_num [REPORTING_LOOKBACK_TIME_HOURS]),
        if_neg (by norm_num [REPORTING_LOOKBACK_TIME_HOURS])]
    show (instance_listing_run onePage).2 ++
        process_loop noWebhookEnv 48 0 false (instance_listing_run onePage).1 =
      Event.describeInstances ::
        (idle_eval_events warnableInstance ++ idle_eval_events warnableInstance ++
          idle_eval_events warnableInstance ++ [Event.raisedMissingWebhook])
    have hlist : instance_listing_run onePage
        = ([warnableInstance], [Event.describeInstances]) := rfl
    rw [hlist, hloop]
    rfl
  rw [htrace, warnableInstance_events]
  decide

/-- Witness for `config_error_timing`: the stop-timeout branch at 49
hours, the warning-timeout branch at 49 hours, and the missing-webhook
branch on `warnableInstance`. -/
theorem config_error_timing_witness :
    (reaper_run noWebhookEnv onePage 49 4 false = [Event.raisedStopTimeoutTooLong] ∧
      ∀ e ∈ reaper_run noWebhookEnv onePage 49 4 false, e.isRemote = false) ∧
    (reaper_run noWebhookEnv onePage 6 49 false = [Event.raisedWarningTimeoutTooLong] ∧
      ∀ e ∈ reaper_run noWebhookEnv onePage 6 49 false, e.isRemote = false) ∧
    process_loop noWebhookEnv 48 0 false [warnableInstance] =
      idle_eval_events warnableInstance ++ idle_eval_events warnableInstance ++
        idle_eval_events warnableInstance ++ [Event.raisedMissingWebhook] := by
  refine ⟨(config_error_timing noWebhookEnv onePage 49 4 false).1
      (by norm_num [REPORTING_LOOKBACK_TIME_HOURS]),
    (config_error_timing noWebhookEnv onePage 6 49 false).2.1
      (by norm_num [REPORTING_LOOKBACK_TIME_HOURS])
      (by norm_num [REPORTING_LOOKBACK_TIME_HOURS]),
    (config_error_timing noWebhookEnv onePage 48 0 false).2.2 rfl warnableInstance [] rfl
      (by rw [warnableInstance_idle]; norm_num)
      (by rw [warnableInstance_idle])⟩
